import Mathlib

/-!
# Attendance management system: verification of the attendance core

Shallow embedding of the attendance-management backend
(`node-backend/server.js` and `database/schema.sql`): the attendance
upsert (stored procedure `MarkAttendance`), the class-scheduling
resolver (`GET /api/terminal/current-class`), the frame-processing
endpoint (`POST /api/process-frame`) as an event machine over its two
callbacks, the reporting query (`GET /api/reports/attendance`), the
WebSocket `broadcast` fan-out, student creation, attendance rates, and
the JWT login/middleware pair.
-/

namespace AMS

/-- Attendance status, schema.sql: `status ENUM('present', 'absent')`. -/
inductive Status where
  | present
  | absent
deriving DecidableEq

/-- A row of the `attendance` table (schema.sql lines 36-49).  The
surrogate `id` column is omitted; `marked_at` is an abstract timestamp. -/
structure AttRow where
  student_id : String
  class_id : Nat
  status : Status
  marked_at : Nat
deriving DecidableEq

/-- The `UNIQUE KEY unique_student_class (student_id, class_id)` key of a row. -/
def matchPair (sid : String) (cid : Nat) (r : AttRow) : Bool :=
  r.student_id == sid && r.class_id == cid

/-- `INSERT ... ON DUPLICATE KEY UPDATE status = p_status, marked_at =
CURRENT_TIMESTAMP` over the `attendance` table: if a row with the same
`(student_id, class_id)` unique key exists it is updated in place,
otherwise a fresh row is appended. -/
def upsertAtt (rows : List AttRow) (sid : String) (cid : Nat) (st : Status)
    (nowTs : Nat) : List AttRow :=
  if rows.any (matchPair sid cid) then
    rows.map (fun r =>
      if matchPair sid cid r then { r with status := st, marked_at := nowTs } else r)
  else
    rows ++ [⟨sid, cid, st, nowTs⟩]

/-- The per-row function of the duplicate-key branch of `upsertAtt`. -/
def upsertStep (sid : String) (cid : Nat) (st : Status) (nowTs : Nat)
    (r : AttRow) : AttRow :=
  if matchPair sid cid r then { r with status := st, marked_at := nowTs } else r

theorem upsertAtt_dup {rows : List AttRow} {sid : String} {cid : Nat}
    {st : Status} {nowTs : Nat} (h : rows.any (matchPair sid cid) = true) :
    upsertAtt rows sid cid st nowTs = rows.map (upsertStep sid cid st nowTs) := by
  simp [upsertAtt, h, upsertStep]

theorem upsertAtt_new {rows : List AttRow} {sid : String} {cid : Nat}
    {st : Status} {nowTs : Nat} (h : rows.any (matchPair sid cid) = false) :
    upsertAtt rows sid cid st nowTs = rows ++ [⟨sid, cid, st, nowTs⟩] := by
  simp [upsertAtt, h]

/-- Database state relevant to attendance marking: the `student_id`
column of `students`, the `id` column of `classes`, the `attendance`
table and the `activity_logs` table. -/
structure DB where
  students : List String
  classes : List Nat
  attendance : List AttRow
  logs : List String
deriving DecidableEq

/-- The only error the `MarkAttendance` procedure can surface on a bad
reference: schema.sql declares `FOREIGN KEY (class_id) REFERENCES
classes(id)` (and no foreign key on `student_id`), so an insert with an
unknown class id raises, is rolled back by the `EXIT HANDLER`, and
`RESIGNAL`ed to the caller. -/
inductive MarkError where
  | fkViolationClass
deriving DecidableEq

/-- schema.sql `MarkAttendance(p_student_id, p_class_id, p_status)`:
inside a transaction, upsert the attendance row and append an activity
log line.  The foreign key on `class_id` makes the insert fail (and the
transaction roll back) when the class does not exist; there is no
foreign key on `student_id`, so no check on the student is performed. -/
def MarkAttendance (db : DB) (sid : String) (cid : Nat) (st : Status)
    (nowTs : Nat) : Except MarkError DB :=
  if cid ∈ db.classes then
    Except.ok { db with
      attendance := upsertAtt db.attendance sid cid st nowTs,
      logs := db.logs ++ ["Student " ++ sid ++ " marked for class"] }
  else
    Except.error MarkError.fkViolationClass

/-- One `CALL MarkAttendance(...)`, with a rolled-back (errored) call
leaving the database unchanged. -/
def runMark (db : DB) (call : String × Nat × Status × Nat) : DB :=
  match MarkAttendance db call.1 call.2.1 call.2.2.1 call.2.2.2 with
  | Except.ok db2 => db2
  | Except.error _ => db

/-- A sequence of `MarkAttendance` calls. -/
def runMarks (db : DB) (calls : List (String × Nat × Status × Nat)) : DB :=
  calls.foldl runMark db

/-- Two attendance rows collide on the `unique_student_class` key. -/
def samePair (a b : AttRow) : Prop :=
  a.student_id = b.student_id ∧ a.class_id = b.class_id

instance : DecidableRel samePair := fun a b => by
  unfold samePair; infer_instance

/-- No two attendance rows share a `(student_id, class_id)` pair: the
property enforced by `UNIQUE KEY unique_student_class`. -/
def PairUnique (rows : List AttRow) : Prop :=
  rows.Pairwise (fun a b => ¬ samePair a b)

instance : DecidablePred PairUnique := fun rows => by
  unfold PairUnique; infer_instance

/-- `matchPair` decides equality of the key fields. -/
theorem matchPair_iff {sid : String} {cid : Nat} {r : AttRow} :
    matchPair sid cid r = true ↔ r.student_id = sid ∧ r.class_id = cid := by
  simp [matchPair]

/-- The update applied by `ON DUPLICATE KEY UPDATE`. -/
def updRow (st : Status) (nowTs : Nat) (r : AttRow) : AttRow :=
  { r with status := st, marked_at := nowTs }

theorem upsertStep_key (sid : String) (cid : Nat) (st : Status) (t : Nat) (r : AttRow) :
    (upsertStep sid cid st t r).student_id = r.student_id ∧
      (upsertStep sid cid st t r).class_id = r.class_id := by
  unfold upsertStep
  split <;> simp

theorem matchPair_upsertStep (sid : String) (cid : Nat) (st : Status) (t : Nat)
    (s2 : String) (c2 : Nat) (r : AttRow) :
    matchPair s2 c2 (upsertStep sid cid st t r) = matchPair s2 c2 r := by
  have h := upsertStep_key sid cid st t r
  simp [matchPair, h.1, h.2]

theorem samePair_upsertStep (sid : String) (cid : Nat) (st : Status) (t : Nat)
    (a b : AttRow) :
    samePair (upsertStep sid cid st t a) (upsertStep sid cid st t b) ↔ samePair a b := by
  unfold samePair
  rw [(upsertStep_key sid cid st t a).1, (upsertStep_key sid cid st t a).2,
    (upsertStep_key sid cid st t b).1, (upsertStep_key sid cid st t b).2]

theorem countP_le_one_of_pairUnique {rows : List AttRow} (h : PairUnique rows)
    (sid : String) (cid : Nat) : rows.countP (matchPair sid cid) ≤ 1 := by
  induction rows with
  | nil => simp
  | cons r rs ih =>
    rw [PairUnique, List.pairwise_cons] at h
    rw [List.countP_cons]
    by_cases hm : matchPair sid cid r = true
    · have h0 : rs.countP (matchPair sid cid) = 0 := by
        rw [List.countP_eq_zero]
        intro b hb hbm
        have h1 := matchPair_iff.mp hm
        have h2 := matchPair_iff.mp hbm
        exact h.1 b hb ⟨h1.1.trans h2.1.symm, h1.2.trans h2.2.symm⟩
      simp [hm, h0]
    · have hm2 : matchPair sid cid r = false := by
        cases hb : matchPair sid cid r
        · rfl
        · exact absurd hb hm
      simp only [hm2, if_false]
      exact ih h.2

/-- The duplicate-key update preserves the uniqueness invariant. -/
theorem pairUnique_upsert {rows : List AttRow} (h : PairUnique rows)
    (sid : String) (cid : Nat) (st : Status) (t : Nat) :
    PairUnique (upsertAtt rows sid cid st t) := by
  cases ha : rows.any (matchPair sid cid) with
  | true =>
    rw [upsertAtt_dup ha]
    unfold PairUnique at h ⊢
    rw [List.pairwise_map]
    exact h.imp fun hab hp => hab ((samePair_upsertStep sid cid st t _ _).mp hp)
  | false =>
    rw [upsertAtt_new ha]
    unfold PairUnique at h ⊢
    rw [List.pairwise_append]
    refine ⟨h, List.pairwise_singleton _ _, ?_⟩
    intro a haMem b hbMem hp
    rw [List.mem_singleton] at hbMem
    subst hbMem
    have hmatch : matchPair sid cid a = true := matchPair_iff.mpr ⟨hp.1, hp.2⟩
    have : rows.any (matchPair sid cid) = true := List.any_eq_true.mpr ⟨a, haMem, hmatch⟩
    rw [ha] at this
    exact Bool.false_ne_true this

theorem filter_map_upd_nil (sid : String) (cid : Nat) (st : Status) (t : Nat)
    {rows : List AttRow} (h0 : ∀ r ∈ rows, matchPair sid cid r = false) :
    (rows.map (upsertStep sid cid st t)).filter (matchPair sid cid) = [] := by
  rw [List.filter_eq_nil_iff]
  intro a ha
  rw [List.mem_map] at ha
  obtain ⟨r, hr, rfl⟩ := ha
  rw [matchPair_upsertStep, h0 r hr]
  simp

theorem filter_map_upd (sid : String) (cid : Nat) (st : Status) (t : Nat)
    (rows : List AttRow) (hcnt : rows.countP (matchPair sid cid) ≤ 1)
    (ha : rows.any (matchPair sid cid) = true) :
    (rows.map (upsertStep sid cid st t)).filter (matchPair sid cid) =
      [⟨sid, cid, st, t⟩] := by
  induction rows with
  | nil => simp at ha
  | cons r rs ih =>
    rw [List.map_cons, List.filter_cons, matchPair_upsertStep]
    cases hm : matchPair sid cid r with
    | true =>
      have hr := matchPair_iff.mp hm
      have hstep : upsertStep sid cid st t r = ⟨sid, cid, st, t⟩ := by
        unfold upsertStep
        rw [hm]
        obtain ⟨h1, h2⟩ := hr
        cases r
        simp_all
      have h0 : ∀ b ∈ rs, matchPair sid cid b = false := by
        have hz : rs.countP (matchPair sid cid) = 0 := by
          rw [List.countP_cons] at hcnt
          simp only [hm, if_true] at hcnt
          omega
        rw [List.countP_eq_zero] at hz
        intro b hb
        cases hbm : matchPair sid cid b
        · rfl
        · exact absurd hbm (hz b hb)
      simp [hstep, filter_map_upd_nil sid cid st t h0]
    | false =>
      simp only [if_false, Bool.false_eq_true, if_neg]
      apply ih
      · rw [List.countP_cons] at hcnt
        simpa [hm] using hcnt
      · rw [List.any_cons] at ha
        simpa [hm] using ha

/-- After an upsert, the rows for the touched pair are exactly the one
freshly written row. -/
theorem filter_upsert {rows : List AttRow} (h : PairUnique rows)
    (sid : String) (cid : Nat) (st : Status) (t : Nat) :
    (upsertAtt rows sid cid st t).filter (matchPair sid cid) = [⟨sid, cid, st, t⟩] := by
  cases ha : rows.any (matchPair sid cid) with
  | false =>
    rw [upsertAtt_new ha, List.filter_append]
    have h1 : rows.filter (matchPair sid cid) = [] := by
      rw [List.filter_eq_nil_iff]
      intro a haMem hm
      have : rows.any (matchPair sid cid) = true := List.any_eq_true.mpr ⟨a, haMem, hm⟩
      rw [ha] at this
      exact Bool.false_ne_true this
    rw [h1]
    simp [matchPair]
  | true =>
    rw [upsertAtt_dup ha]
    exact filter_map_upd sid cid st t rows (countP_le_one_of_pairUnique h sid cid) ha

theorem markAttendance_ok_parts {db : DB} {sid : String} {cid : Nat} {st : Status}
    {t : Nat} {db2 : DB} (h : MarkAttendance db sid cid st t = Except.ok db2) :
    db2.attendance = upsertAtt db.attendance sid cid st t ∧
      db2.students = db.students ∧ db2.classes = db.classes := by
  unfold MarkAttendance at h
  split at h
  · cases h
    exact ⟨rfl, rfl, rfl⟩
  · cases h

theorem runMark_ok {db : DB} {sid : String} {cid : Nat} {st : Status} {t : Nat}
    (hc : cid ∈ db.classes) :
    runMark db (sid, cid, st, t) =
      { db with attendance := upsertAtt db.attendance sid cid st t,
                logs := db.logs ++ ["Student " ++ sid ++ " marked for class"] } := by
  unfold runMark MarkAttendance
  simp [hc]

theorem runMark_classes (db : DB) (c : String × Nat × Status × Nat) :
    (runMark db c).classes = db.classes := by
  unfold runMark
  cases h : MarkAttendance db c.1 c.2.1 c.2.2.1 c.2.2.2 with
  | ok db2 => exact (markAttendance_ok_parts h).2.2
  | error e => rfl

theorem pairUnique_runMark (db : DB) (c : String × Nat × Status × Nat)
    (h : PairUnique db.attendance) : PairUnique (runMark db c).attendance := by
  unfold runMark
  cases hm : MarkAttendance db c.1 c.2.1 c.2.2.1 c.2.2.2 with
  | ok db2 =>
    rw [(markAttendance_ok_parts hm).1]
    exact pairUnique_upsert h _ _ _ _
  | error e => exact h

theorem pairUnique_runMarks (db : DB) (calls : List (String × Nat × Status × Nat))
    (h : PairUnique db.attendance) : PairUnique (runMarks db calls).attendance := by
  induction calls generalizing db with
  | nil => exact h
  | cons c cs ih =>
    rw [runMarks, List.foldl_cons]
    exact ih _ (pairUnique_runMark db c h)

/-- C1: for every `(studentId, classId)` pair, marking attendance a second
time (same or different status) leaves exactly one attendance record for
that pair, carrying the status and timestamp of the second call; and no
sequence of `MarkAttendance` calls starting from a key-unique table ever
produces two rows with the same `(student_id, class_id)`. -/
theorem mark_attendance_upsert_unique
    (db : DB) (sid : String) (cid : Nat) (st₁ st₂ : Status) (t₁ t₂ : Nat)
    (calls : List (String × Nat × Status × Nat))
    (hinv : PairUnique db.attendance) (hc : cid ∈ db.classes) :
    ((runMark (runMark db (sid, cid, st₁, t₁)) (sid, cid, st₂, t₂)).attendance.filter
        (matchPair sid cid) = [⟨sid, cid, st₂, t₂⟩])
    ∧ PairUnique (runMarks db calls).attendance := by
  constructor
  · have hc2 : cid ∈ (runMark db (sid, cid, st₁, t₁)).classes := by
      rw [runMark_classes]
      exact hc
    rw [runMark_ok hc2, runMark_ok hc]
    exact filter_upsert (pairUnique_upsert hinv sid cid st₁ t₁) sid cid st₂ t₂
  · exact pairUnique_runMarks db calls hinv

/-- Witness for the C1 theorem at a concrete database. -/
theorem mark_attendance_upsert_unique_witness :
    PairUnique (DB.mk ["S1"] [1] [] []).attendance ∧
    1 ∈ (DB.mk ["S1"] [1] [] []).classes ∧
    (((runMark (runMark (DB.mk ["S1"] [1] [] []) ("S1", 1, Status.present, 0))
        ("S1", 1, Status.absent, 1)).attendance.filter (matchPair "S1" 1) =
        [⟨"S1", 1, Status.absent, 1⟩])
      ∧ PairUnique (runMarks (DB.mk ["S1"] [1] [] []) []).attendance) :=
  ⟨by decide, by decide,
    mark_attendance_upsert_unique (DB.mk ["S1"] [1] [] []) "S1" 1
      Status.present Status.absent 0 1 [] (by decide) (by decide)⟩

/-! ## Real-time broadcast hub (server.js lines 1471-1521) -/

/-- The `ws` connection ready states. -/
inductive WsState where
  | CONNECTING
  | OPEN
  | CLOSING
  | CLOSED
deriving DecidableEq

/-- One registered WebSocket connection from the `connectedClients` set. -/
structure WsConn where
  id : Nat
  readyState : WsState
deriving DecidableEq

/-- `ws.send`: delivering succeeds on an open connection and fails on a
connection in any other state. -/
def wsSend (c : WsConn) (msg : String) : Except String (Nat × String) :=
  if c.readyState = WsState.OPEN then Except.ok (c.id, msg)
  else Except.error "WebSocket is not open"

/-- server.js `broadcast(message)`: iterate over `connectedClients` and
send the message only to connections whose `readyState` is
`WebSocket.OPEN`; every other connection is skipped.  A failing send
would be propagated as an error, so the correctness theorem can state
that no error ever occurs. -/
def broadcast (msg : String) : List WsConn → Except String (List (Nat × String))
  | [] => Except.ok []
  | c :: rest =>
    if c.readyState = WsState.OPEN then
      match wsSend c msg with
      | Except.error e => Except.error e
      | Except.ok d =>
        match broadcast msg rest with
        | Except.error e => Except.error e
        | Except.ok ds => Except.ok (d :: ds)
    else broadcast msg rest

/-- C8: `broadcast` sends the event exactly to the connections whose
state is open (in registration order), skipping every non-open
connection, and never fails however many closed connections the set
contains. -/
theorem broadcast_skips_non_open (msg : String) (clients : List WsConn) :
    broadcast msg clients =
      Except.ok ((clients.filter
        (fun c => decide (c.readyState = WsState.OPEN))).map (fun c => (c.id, msg))) := by
  induction clients with
  | nil => rfl
  | cons c rest ih =>
    unfold broadcast
    by_cases h : c.readyState = WsState.OPEN
    · simp [h, wsSend, ih]
    · simp [h, ih]

/-! ## Student creation (server.js lines 295-325 and 353-414) -/

/-- A row of the `students` table (schema.sql lines 8-19). -/
structure StudentRow where
  student_id : String
  name : String
  email : String
  face_encoding : String
  photo_path : Option String
deriving DecidableEq

/-- Errors a student-creation handler can answer with. -/
inductive ApiError where
  | badRequest (msg : String)
  | duplicate
deriving DecidableEq

/-- `POST /api/students`: validate (`student_id` and `name` nonempty,
`email` accepted by the validator), reject a duplicate `student_id`
(`ER_DUP_ENTRY` from the UNIQUE key), otherwise
`INSERT INTO students (student_id, name, email, face_encoding) VALUES (?, ?, ?, '')`
— the face encoding written is always the empty string ("Face encoding
will be added later via Python system"). -/
def postStudents (isEmail : String → Bool) (students : List StudentRow)
    (sid nm email : String) : Except ApiError (List StudentRow × StudentRow) :=
  if sid = "" ∨ nm = "" ∨ ¬ isEmail email then
    Except.error (ApiError.badRequest "validation failed")
  else if students.any (fun s => s.student_id == sid) then
    Except.error ApiError.duplicate
  else
    Except.ok (students ++ [⟨sid, nm, email, "", none⟩], ⟨sid, nm, email, "", none⟩)

/-- `POST /api/students/with-photo`: require the three fields and a
photo, reject a duplicate `student_id`, otherwise insert the row with
`face_encoding` `''` and the stored photo path; the external
`register_student.py` job that later fills the encoding runs out of
process and writes nothing in this handler. -/
def postStudentsWithPhoto (students : List StudentRow)
    (sid nm email : String) (photo : Option String) :
    Except ApiError (List StudentRow × StudentRow) :=
  if sid = "" ∨ nm = "" ∨ email = "" then
    Except.error (ApiError.badRequest "Student ID, name, and email are required")
  else
    match photo with
    | none => Except.error (ApiError.badRequest "Photo is required")
    | some p =>
      if students.any (fun s => s.student_id == sid) then
        Except.error ApiError.duplicate
      else
        Except.ok (students ++ [⟨sid, nm, email, "", some p⟩], ⟨sid, nm, email, "", some p⟩)

/-- C9: every student the backend inserts — through `POST /api/students`
or `POST /api/students/with-photo` — starts with `face_encoding` equal to
the empty string, and the handler changes no other row, so the backend
itself never writes a non-empty face encoding. -/
theorem student_insert_empty_face_encoding (isEmail : String → Bool)
    (students : List StudentRow) (sid nm email : String) (photo : Option String)
    (db₁ db₂ : List StudentRow) (r₁ r₂ : StudentRow)
    (h₁ : postStudents isEmail students sid nm email = Except.ok (db₁, r₁))
    (h₂ : postStudentsWithPhoto students sid nm email photo = Except.ok (db₂, r₂)) :
    db₁ = students ++ [r₁] ∧ r₁.face_encoding = "" ∧
      db₂ = students ++ [r₂] ∧ r₂.face_encoding = "" := by
  unfold postStudents at h₁
  unfold postStudentsWithPhoto at h₂
  split at h₁
  · cases h₁
  · split at h₁
    · cases h₁
    · split at h₂
      · cases h₂
      · split at h₂
        · cases h₂
        · rw [Except.ok.injEq, Prod.mk.injEq] at h₁ h₂
          obtain ⟨hdb₁, hr₁⟩ := h₁
          obtain ⟨hdb₂, hr₂⟩ := h₂
          subst hdb₁
          subst hr₁
          subst hdb₂
          subst hr₂
          exact ⟨rfl, rfl, rfl, rfl⟩

/-- Witness for the C9 theorem at a concrete request. -/
theorem student_insert_empty_face_encoding_witness :
    ([] : List StudentRow) ++ [⟨"S1", "Ada", "a@b.c", "", none⟩] =
        [(⟨"S1", "Ada", "a@b.c", "", none⟩ : StudentRow)] ∧
      (StudentRow.mk "S1" "Ada" "a@b.c" "" none).face_encoding = "" ∧
      ([] : List StudentRow) ++ [⟨"S1", "Ada", "a@b.c", "", some "p.jpg"⟩] =
        [(⟨"S1", "Ada", "a@b.c", "", some "p.jpg"⟩ : StudentRow)] ∧
      (StudentRow.mk "S1" "Ada" "a@b.c" "" (some "p.jpg")).face_encoding = "" :=
  student_insert_empty_face_encoding (fun _ => true) [] "S1" "Ada" "a@b.c"
    (some "p.jpg") _ _ _ _ rfl rfl

/-! ## Class scheduling resolver (server.js lines 1050-1116)

The handler computes `currentDate` once from the local date parts of
`now` and `currentTime` as `now.toTimeString().slice(0, 8)`, and uses
the same `currentDate` in both the current-class and the upcoming-class
query.  `date` is an abstract local calendar-day index; `start_time`,
`end_time` and `currentTime` are second counts within the day
(`TIME_FORMAT '%H:%i:%s'` strings compare lexicographically, which on
zero-padded `HH:MM:SS` agrees with the numeric second count). -/

/-- A row of the `classes` table (schema.sql lines 22-33). -/
structure ClassRow where
  id : Nat
  class_name : String
  date : Nat
  start_time : Nat
  end_time : Nat
deriving DecidableEq

/-- The first row of `ORDER BY c.start_time ASC LIMIT 1`. -/
def headMinByStart : List ClassRow → Option ClassRow
  | [] => none
  | c :: rest =>
    match headMinByStart rest with
    | none => some c
    | some b => if b.start_time < c.start_time then some b else some c

theorem headMinByStart_eq_none {l : List ClassRow} :
    headMinByStart l = none ↔ l = [] := by
  cases l with
  | nil => simp [headMinByStart]
  | cons c rest =>
    rw [headMinByStart]
    cases h : headMinByStart rest with
    | none => simp
    | some b =>
      by_cases hlt : b.start_time < c.start_time
      · simp [hlt]
      · simp [hlt]

theorem headMinByStart_mem {l : List ClassRow} {c : ClassRow}
    (h : headMinByStart l = some c) : c ∈ l := by
  induction l with
  | nil => cases h
  | cons a rest ih =>
    rw [headMinByStart] at h
    cases hr : headMinByStart rest with
    | none =>
      rw [hr] at h
      dsimp only at h
      cases h
      exact List.mem_cons_self _ _
    | some b =>
      rw [hr] at h
      dsimp only at h
      by_cases hlt : b.start_time < a.start_time
      · rw [if_pos hlt] at h
        cases h
        exact List.mem_cons_of_mem _ (ih hr)
      · rw [if_neg hlt] at h
        cases h
        exact List.mem_cons_self _ _

theorem headMinByStart_min (l : List ClassRow) :
    ∀ {c : ClassRow}, headMinByStart l = some c →
      ∀ b ∈ l, c.start_time ≤ b.start_time := by
  induction l with
  | nil => intro c h; cases h
  | cons a rest ih =>
    intro c h b hb
    rw [headMinByStart] at h
    rw [List.mem_cons] at hb
    cases hr : headMinByStart rest with
    | none =>
      rw [hr] at h
      dsimp only at h
      cases h
      have hnil : rest = [] := headMinByStart_eq_none.mp hr
      subst hnil
      rcases hb with hba | hbr
      · subst hba; exact Nat.le_refl _
      · cases hbr
    | some m =>
      rw [hr] at h
      dsimp only at h
      by_cases hlt : m.start_time < a.start_time
      · rw [if_pos hlt] at h
        cases h
        rcases hb with hba | hbr
        · subst hba; exact Nat.le_of_lt hlt
        · exact ih hr b hbr
      · rw [if_neg hlt] at h
        cases h
        rcases hb with hba | hbr
        · subst hba; exact Nat.le_refl _
        · exact Nat.le_trans (Nat.le_of_not_lt hlt) (ih hr b hbr)

/-- The current-class WHERE clause: `date = ? AND start_time <= ? AND
end_time >= ?` with both `?`s the current time-of-day. -/
def isCurrentRow (curDate curTime : Nat) (c : ClassRow) : Bool :=
  c.date == curDate && decide (c.start_time ≤ curTime) && decide (curTime ≤ c.end_time)

/-- First query of `GET /api/terminal/current-class`. -/
def currentClassQuery (classes : List ClassRow) (curDate curTime : Nat) :
    Option ClassRow :=
  headMinByStart (classes.filter (isCurrentRow curDate curTime))

/-- The upcoming-class WHERE clause: `date = ? AND start_time > ? AND
start_time <= ?` with the last `?` bound to `nextHour`. -/
def isUpcomingRow (curDate curTime nextHour : Nat) (c : ClassRow) : Bool :=
  c.date == curDate && decide (curTime < c.start_time) && decide (c.start_time ≤ nextHour)

/-- Second query of `GET /api/terminal/current-class`. -/
def upcomingClassQuery (classes : List ClassRow) (curDate curTime nextHour : Nat) :
    Option ClassRow :=
  headMinByStart (classes.filter (isUpcomingRow curDate curTime nextHour))

/-- `new Date(now.getTime() + 60*60*1000).toTimeString().slice(0, 8)`:
the bound passed to the upcoming query is the *time-of-day* of now plus
one hour, which wraps around midnight. -/
def nextHourTod (curTime : Nat) : Nat := (curTime + 3600) % 86400

/-- `GET /api/terminal/current-class`: the current class if one window
contains now, otherwise the upcoming class within the next-hour bound.
The pair is (current class, upcoming class) of the JSON response. -/
def terminalCurrentClass (classes : List ClassRow) (curDate curTime : Nat) :
    Option ClassRow × Option ClassRow :=
  match currentClassQuery classes curDate curTime with
  | some c => (some c, none)
  | none => (none, upcomingClassQuery classes curDate curTime (nextHourTod curTime))

/-- The upcoming-class rule exactly as the claim words it: the earliest
class of the same local date whose start time is strictly after now and
at most 60 minutes after now, measured forward in real time without
wrapping at midnight. -/
def upcomingClassClaim (classes : List ClassRow) (curDate curTime : Nat) :
    Option ClassRow :=
  headMinByStart (classes.filter (fun c =>
    c.date == curDate && decide (curTime < c.start_time) &&
      decide (c.start_time ≤ curTime + 3600)))

theorem isCurrentRow_iff {d t : Nat} {c : ClassRow} :
    isCurrentRow d t c = true ↔ c.date = d ∧ c.start_time ≤ t ∧ t ≤ c.end_time := by
  simp [isCurrentRow, and_assoc]

theorem isUpcomingRow_iff {d t n : Nat} {c : ClassRow} :
    isUpcomingRow d t n c = true ↔ c.date = d ∧ t < c.start_time ∧ c.start_time ≤ n := by
  simp [isUpcomingRow, and_assoc]

theorem terminalCurrentClass_fst (classes : List ClassRow) (curDate curTime : Nat) :
    (terminalCurrentClass classes curDate curTime).1 =
      currentClassQuery classes curDate curTime := by
  unfold terminalCurrentClass
  cases h : currentClassQuery classes curDate curTime <;> simp

theorem terminalCurrentClass_snd_of_none {classes : List ClassRow}
    {curDate curTime : Nat} (h : currentClassQuery classes curDate curTime = none) :
    (terminalCurrentClass classes curDate curTime).2 =
      upcomingClassQuery classes curDate curTime (nextHourTod curTime) := by
  unfold terminalCurrentClass
  rw [h]

/-- C4 counterexample: at 23:30:00 local (second 84600) with one class on
the same day running 23:45:00-23:59:00, the handler reports neither a
current nor an upcoming class, while the claim's rule ("start strictly
after now and at most 60 minutes after now") selects that class: the SQL
upper bound is the time-of-day of now+60min, which wraps to 00:30:00. -/
theorem current_class_upcoming_counterexample :
    terminalCurrentClass [⟨1, "LateClass", 100, 85500, 86340⟩] 100 84600 =
        (none, none) ∧
      upcomingClassClaim [⟨1, "LateClass", 100, 85500, 86340⟩] 100 84600 =
        some ⟨1, "LateClass", 100, 85500, 86340⟩ ∧
      (terminalCurrentClass [⟨1, "LateClass", 100, 85500, 86340⟩] 100 84600).2 ≠
        upcomingClassClaim [⟨1, "LateClass", 100, 85500, 86340⟩] 100 84600 := by
  refine ⟨by decide, by decide, by decide⟩

/-- C4 (amended): `currentClass` returns the class whose date equals the
local calendar date and whose `[start, end]` window contains the current
time-of-day — the earliest-starting such class, and none exactly when no
class matches.  In the no-match case the upcoming class is the earliest
class of the same local date whose start time is strictly after now and
at most the *time-of-day of now + 60 minutes*; both checks use the same
local-date value.  When now + 60 minutes crosses midnight that wrapped
bound lies before now, the window is empty, and no upcoming class is
returned. -/
theorem current_class_resolver_amended (classes : List ClassRow)
    (curDate curTime : Nat) :
    (((terminalCurrentClass classes curDate curTime).1 = none ↔
        ∀ c ∈ classes, ¬(c.date = curDate ∧ c.start_time ≤ curTime ∧
          curTime ≤ c.end_time))
    ∧ (∀ c, (terminalCurrentClass classes curDate curTime).1 = some c →
        c ∈ classes ∧ c.date = curDate ∧ c.start_time ≤ curTime ∧
          curTime ≤ c.end_time ∧
          ∀ b ∈ classes, (b.date = curDate ∧ b.start_time ≤ curTime ∧
            curTime ≤ b.end_time) → c.start_time ≤ b.start_time)
    ∧ ((terminalCurrentClass classes curDate curTime).1 = none →
        ((terminalCurrentClass classes curDate curTime).2 = none ↔
          ∀ c ∈ classes, ¬(c.date = curDate ∧ curTime < c.start_time ∧
            c.start_time ≤ nextHourTod curTime))
        ∧ ∀ c, (terminalCurrentClass classes curDate curTime).2 = some c →
            c ∈ classes ∧ c.date = curDate ∧ curTime < c.start_time ∧
              c.start_time ≤ nextHourTod curTime ∧
              ∀ b ∈ classes, (b.date = curDate ∧ curTime < b.start_time ∧
                b.start_time ≤ nextHourTod curTime) → c.start_time ≤ b.start_time)
    ∧ (curTime < 86400 → 86400 ≤ curTime + 3600 →
        (terminalCurrentClass classes curDate curTime).2 = none)) := by
  refine ⟨?_, ?_, ?_, ?_⟩
  · rw [terminalCurrentClass_fst]
    unfold currentClassQuery
    rw [headMinByStart_eq_none, List.filter_eq_nil_iff]
    constructor
    · intro h c hc hcond
      exact h c hc (isCurrentRow_iff.mpr hcond)
    · intro h c hc hcond
      exact h c hc (isCurrentRow_iff.mp hcond)
  · intro c hc
    rw [terminalCurrentClass_fst] at hc
    unfold currentClassQuery at hc
    have hmem := headMinByStart_mem hc
    rw [List.mem_filter] at hmem
    have hcond := isCurrentRow_iff.mp hmem.2
    refine ⟨hmem.1, hcond.1, hcond.2.1, hcond.2.2, ?_⟩
    intro b hb hbcond
    exact headMinByStart_min _ hc b
      (List.mem_filter.mpr ⟨hb, isCurrentRow_iff.mpr hbcond⟩)
  · intro hnone
    rw [terminalCurrentClass_fst] at hnone
    rw [terminalCurrentClass_snd_of_none hnone]
    constructor
    · unfold upcomingClassQuery
      rw [headMinByStart_eq_none, List.filter_eq_nil_iff]
      constructor
      · intro h c hc hcond
        exact h c hc (isUpcomingRow_iff.mpr hcond)
      · intro h c hc hcond
        exact h c hc (isUpcomingRow_iff.mp hcond)
    · intro c hc
      unfold upcomingClassQuery at hc
      have hmem := headMinByStart_mem hc
      rw [List.mem_filter] at hmem
      have hcond := isUpcomingRow_iff.mp hmem.2
      refine ⟨hmem.1, hcond.1, hcond.2.1, hcond.2.2, ?_⟩
      intro b hb hbcond
      exact headMinByStart_min _ hc b
        (List.mem_filter.mpr ⟨hb, isUpcomingRow_iff.mpr hbcond⟩)
  · intro h1 h2
    unfold terminalCurrentClass
    cases hq : currentClassQuery classes curDate curTime with
    | some c => rfl
    | none =>
      simp only
      unfold upcomingClassQuery
      rw [headMinByStart_eq_none, List.filter_eq_nil_iff]
      intro c hc hcond
      have hx := isUpcomingRow_iff.mp hcond
      have hwrap : nextHourTod curTime < curTime := by
        unfold nextHourTod
        omega
      omega

/-! ## Referential integrity of `MarkAttendance` (schema.sql lines 36-49, 197-221) -/

/-- C5 counterexample: with no students at all and an existing class 7,
`MarkAttendance("ghost", 7, present)` does not fail — it succeeds and
creates an attendance row for the nonexistent student, because the
`attendance` table has a foreign key on `class_id` only.  The claim
demands a NotFound error and no row for this input. -/
theorem mark_attendance_notfound_counterexample :
    MarkAttendance (DB.mk [] [7] [] []) "ghost" 7 Status.present 0 =
        Except.ok (DB.mk [] [7] [⟨"ghost", 7, Status.present, 0⟩]
          ["Student ghost marked for class"]) ∧
      "ghost" ∉ (DB.mk [] [7] [] []).students ∧
      (DB.mk [] [7] [⟨"ghost", 7, Status.present, 0⟩]
        ["Student ghost marked for class"]).attendance ≠ [] := by
  refine ⟨rfl, by decide, by decide⟩

/-- C5 (amended): `MarkAttendance` fails — with the foreign-key error the
`EXIT HANDLER` rolls back and resignals — exactly when `classId` does not
reference an existing class, and then changes nothing; there is no
foreign key on `student_id`, so a call with an existing class and a
nonexistent student succeeds and creates an attendance row for that
student. -/
theorem mark_attendance_fk_class_only (db : DB) (sid : String) (cid : Nat)
    (st : Status) (t : Nat) :
    (cid ∉ db.classes →
      MarkAttendance db sid cid st t = Except.error MarkError.fkViolationClass)
    ∧ (cid ∈ db.classes →
      MarkAttendance db sid cid st t = Except.ok { db with
        attendance := upsertAtt db.attendance sid cid st t,
        logs := db.logs ++ ["Student " ++ sid ++ " marked for class"] })
    ∧ (cid ∈ db.classes → sid ∉ db.students →
        0 < (upsertAtt db.attendance sid cid st t).countP (matchPair sid cid)) := by
  refine ⟨?_, ?_, ?_⟩
  · intro h
    unfold MarkAttendance
    rw [if_neg h]
  · intro h
    unfold MarkAttendance
    rw [if_pos h]
  · intro _ _
    rw [List.countP_pos_iff]
    cases ha : db.attendance.any (matchPair sid cid) with
    | true =>
      rw [upsertAtt_dup ha]
      obtain ⟨r, hr, hm⟩ := List.any_eq_true.mp ha
      refine ⟨upsertStep sid cid st t r, List.mem_map_of_mem _ hr, ?_⟩
      rw [matchPair_upsertStep]
      exact hm
    | false =>
      rw [upsertAtt_new ha]
      refine ⟨⟨sid, cid, st, t⟩, ?_, ?_⟩
      · simp
      · simp [matchPair]

/-! ## Attendance rates (server.js lines 263-292 and 245-253) -/

/-- Rational model of JavaScript's `x.toFixed(2)`: round to two decimal
places (the float result of `toFixed` is modelled exactly on ℚ). -/
def toFixed2 (q : ℚ) : ℚ := ((round (q * 100) : ℤ) : ℚ) / 100

/-- Per-student aggregation of `GET /api/students`: `COUNT(a.id)` and
`SUM(CASE WHEN a.status = 'present' THEN 1 ELSE 0 END)` over the
student's attendance rows.  Returns (total, present). -/
def studentTotals (rows : List AttRow) (sid : String) : Nat × Nat :=
  (rows.countP (fun r => r.student_id == sid),
   rows.countP (fun r => r.student_id == sid && decide (r.status = Status.present)))

/-- server.js: `attendanceRate: student.total_classes > 0 ?
((student.present_classes / student.total_classes) * 100).toFixed(2) : 0`
(the same shape is used for `overallAttendanceRate` in the dashboard
stats handler). -/
def attendanceRate (present total : Nat) : ℚ :=
  if 0 < total then toFixed2 ((present : ℚ) / (total : ℚ) * 100) else 0

/-- The whole per-student rate computation of `GET /api/students`. -/
def studentAttendanceRate (rows : List AttRow) (sid : String) : ℚ :=
  attendanceRate (studentTotals rows sid).2 (studentTotals rows sid).1

/-- The rate exactly as the claim words it: present/total rounded to two
decimals when total is positive, 0 otherwise. -/
def attendanceRateClaim (present total : Nat) : ℚ :=
  if 0 < total then toFixed2 ((present : ℚ) / (total : ℚ)) else 0

/-- C6 counterexample: for 1 present mark out of 2 records the code
reports 50 (it multiplies by 100 before rounding — a percentage), while
the claim's "present/total rounded to 2 decimals" is 0.5. -/
theorem attendance_rate_counterexample :
    attendanceRate 1 2 = 50 ∧ attendanceRateClaim 1 2 = 1 / 2 ∧
      attendanceRate 1 2 ≠ attendanceRateClaim 1 2 := by
  have h1 : attendanceRate 1 2 = 50 := by
    rw [attendanceRate, if_pos (by norm_num), toFixed2]
    have hcast : ((1 : ℕ) : ℚ) / ((2 : ℕ) : ℚ) * 100 * 100 = ((5000 : ℤ) : ℚ) := by
      push_cast
      norm_num
    rw [hcast, round_intCast]
    norm_num
  have h2 : attendanceRateClaim 1 2 = 1 / 2 := by
    rw [attendanceRateClaim, if_pos (by norm_num), toFixed2]
    have hcast : ((1 : ℕ) : ℚ) / ((2 : ℕ) : ℚ) * 100 = ((50 : ℤ) : ℚ) := by
      push_cast
      norm_num
    rw [hcast, round_intCast]
    norm_num
  exact ⟨h1, h2, by rw [h1, h2]; norm_num⟩

theorem round_mono_q {a b : ℚ} (h : a ≤ b) : round a ≤ round b := by
  rw [round_eq, round_eq]
  exact Int.floor_mono (by linarith)

theorem toFixed2_bounds {q : ℚ} (h0 : 0 ≤ q) (h1 : q ≤ 100) :
    0 ≤ toFixed2 q ∧ toFixed2 q ≤ 100 := by
  unfold toFixed2
  have hl : (0 : ℤ) ≤ round (q * 100) := by
    have := round_mono_q (show (0 : ℚ) ≤ q * 100 by nlinarith)
    rwa [round_zero] at this
  have hu : round (q * 100) ≤ 10000 := by
    have := round_mono_q (show q * 100 ≤ ((10000 : ℤ) : ℚ) by push_cast; nlinarith)
    rwa [round_intCast] at this
  constructor
  · positivity
  · rw [div_le_iff₀ (by norm_num : (0 : ℚ) < 100)]
    calc ((round (q * 100) : ℤ) : ℚ) ≤ ((10000 : ℤ) : ℚ) := by exact_mod_cast hu
    _ = 100 * 100 := by norm_num

theorem studentTotals_present_le_total (rows : List AttRow) (sid : String) :
    (studentTotals rows sid).2 ≤ (studentTotals rows sid).1 := by
  unfold studentTotals
  exact List.countP_mono_left (fun r _ h => by
    rw [Bool.and_eq_true] at h
    exact h.1)

/-- C6 (amended): the per-student attendance-rate computation returns
`(present / total) * 100` rounded to two decimals when the student's
total attendance count is positive, and the number 0 — never an
undefined value — when the total is 0, in particular for a student with
no attendance records at all; the result always lies in `[0, 100]`. -/
theorem student_attendance_rate_safe (rows : List AttRow) (sid : String) :
    ((studentTotals rows sid).1 = 0 → studentAttendanceRate rows sid = 0)
    ∧ ((∀ r ∈ rows, r.student_id ≠ sid) → studentAttendanceRate rows sid = 0)
    ∧ (0 < (studentTotals rows sid).1 →
        studentAttendanceRate rows sid =
          toFixed2 (((studentTotals rows sid).2 : ℚ) /
            ((studentTotals rows sid).1 : ℚ) * 100))
    ∧ 0 ≤ studentAttendanceRate rows sid ∧ studentAttendanceRate rows sid ≤ 100 := by
  have hle := studentTotals_present_le_total rows sid
  refine ⟨?_, ?_, ?_, ?_⟩
  · intro h
    unfold studentAttendanceRate attendanceRate
    rw [h]
    simp
  · intro h
    unfold studentAttendanceRate attendanceRate
    have hz : (studentTotals rows sid).1 = 0 := by
      unfold studentTotals
      rw [List.countP_eq_zero]
      intro r hr hc
      simp only [beq_iff_eq] at hc
      exact h r hr hc
    rw [hz]
    simp
  · intro h
    unfold studentAttendanceRate attendanceRate
    rw [if_pos h]
  · unfold studentAttendanceRate attendanceRate
    by_cases h : 0 < (studentTotals rows sid).1
    · rw [if_pos h]
      have htpos : (0 : ℚ) < ((studentTotals rows sid).1 : ℚ) := by
        exact_mod_cast h
      have hq0 : (0 : ℚ) ≤ ((studentTotals rows sid).2 : ℚ) /
          ((studentTotals rows sid).1 : ℚ) * 100 := by positivity
      have hq1 : ((studentTotals rows sid).2 : ℚ) /
          ((studentTotals rows sid).1 : ℚ) * 100 ≤ 100 := by
        have hr1 : ((studentTotals rows sid).2 : ℚ) /
            ((studentTotals rows sid).1 : ℚ) ≤ 1 := by
          rw [div_le_one htpos]
          exact_mod_cast hle
        nlinarith
      exact toFixed2_bounds hq0 hq1
    · rw [if_neg h]
      norm_num

/-! ## Attendance report (server.js lines 633-676) -/

/-- One row of the report's SELECT projection. -/
structure ReportRow where
  student_id : String
  name : String
  class_name : String
  date : Nat
  start_time : Nat
  end_time : Nat
  status : Status
  marked_at : Nat
deriving DecidableEq

/-- The SELECT projection over one joined (student, class, attendance)
triple. -/
def mkReportRow (s : StudentRow) (c : ClassRow) (a : AttRow) : ReportRow :=
  ⟨s.student_id, s.name, c.class_name, c.date, c.start_time, c.end_time,
    a.status, a.marked_at⟩

/-- `FROM attendance a JOIN students s ON a.student_id = s.student_id
JOIN classes c ON a.class_id = c.id`. -/
def reportJoin (students : List StudentRow) (classes : List ClassRow)
    (attendance : List AttRow) : List ReportRow :=
  attendance.flatMap (fun a =>
    (students.filter (fun s => s.student_id == a.student_id)).flatMap (fun s =>
      (classes.filter (fun c => c.id == a.class_id)).map (fun c => mkReportRow s c a)))

/-- The dynamically built WHERE clause: `c.date >= ?` when `startDate` is
given, `c.date <= ?` when `endDate` is given, `s.student_id = ?` when
`studentId` is given. -/
def inReportRange (startDate endDate : Option Nat) (studentId : Option String)
    (r : ReportRow) : Bool :=
  (match startDate with | some d => decide (d ≤ r.date) | none => true) &&
  (match endDate with | some d => decide (r.date ≤ d) | none => true) &&
  (match studentId with | some sid => r.student_id == sid | none => true)

/-- The `ORDER BY c.date DESC, c.start_time ASC, s.name ASC` key: a
lexicographic triple with the date negated for the descending component. -/
def reportKey (r : ReportRow) : ℤ ×ₗ (ℕ ×ₗ String) :=
  toLex (-(r.date : ℤ), toLex (r.start_time, r.name))

/-- Row `a` may come before row `b` in the report ordering. -/
def reportLE (a b : ReportRow) : Prop := reportKey a ≤ reportKey b

instance : DecidableRel reportLE := fun a b =>
  inferInstanceAs (Decidable (reportKey a ≤ reportKey b))

instance : IsTotal ReportRow reportLE :=
  ⟨fun a b => le_total (reportKey a) (reportKey b)⟩

instance : IsTrans ReportRow reportLE :=
  ⟨fun _ _ _ hab hbc => le_trans hab hbc⟩

/-- `GET /api/reports/attendance`: join, filter by the optional
parameters, order by (date desc, start_time asc, name asc). -/
def reportQuery (students : List StudentRow) (classes : List ClassRow)
    (attendance : List AttRow) (startDate endDate : Option Nat)
    (studentId : Option String) : List ReportRow :=
  List.insertionSort reportLE
    ((reportJoin students classes attendance).filter
      (inReportRange startDate endDate studentId))

/-- The claim-facing ordering: class date descending, then class start
time ascending, then student name ascending. -/
def reportOrd (a b : ReportRow) : Prop :=
  b.date < a.date ∨ (a.date = b.date ∧ (a.start_time < b.start_time ∨
    (a.start_time = b.start_time ∧ a.name ≤ b.name)))

theorem reportLE_imp {a b : ReportRow} (h : reportLE a b) : reportOrd a b := by
  unfold reportLE reportKey at h
  rw [Prod.Lex.le_iff] at h
  dsimp only at h
  unfold reportOrd
  rcases h with h | ⟨heq, h2⟩
  · left
    omega
  · right
    refine ⟨by omega, ?_⟩
    rw [Prod.Lex.le_iff] at h2
    dsimp only at h2
    exact h2

theorem mem_reportJoin {students : List StudentRow} {classes : List ClassRow}
    {attendance : List AttRow} {x : ReportRow} :
    x ∈ reportJoin students classes attendance ↔
      ∃ a ∈ attendance, ∃ s ∈ students, ∃ c ∈ classes,
        s.student_id = a.student_id ∧ c.id = a.class_id ∧ x = mkReportRow s c a := by
  unfold reportJoin
  rw [List.mem_flatMap]
  constructor
  · rintro ⟨a, ha, hx⟩
    rw [List.mem_flatMap] at hx
    obtain ⟨s, hs, hx⟩ := hx
    rw [List.mem_filter] at hs
    rw [List.mem_map] at hx
    obtain ⟨c, hc, rfl⟩ := hx
    rw [List.mem_filter] at hc
    exact ⟨a, ha, s, hs.1, c, hc.1, by simpa using hs.2, by simpa using hc.2, rfl⟩
  · rintro ⟨a, ha, s, hs, c, hc, hsid, hcid, rfl⟩
    refine ⟨a, ha, ?_⟩
    rw [List.mem_flatMap]
    refine ⟨s, List.mem_filter.mpr ⟨hs, by simpa using hsid⟩, ?_⟩
    rw [List.mem_map]
    exact ⟨c, List.mem_filter.mpr ⟨hc, by simpa using hcid⟩, rfl⟩

/-- C7: with both dates supplied, the attendance report contains exactly
the joined attendance rows whose class date lies in `[startDate,
endDate]` inclusive (and, when a studentId is supplied, belong to that
student): membership is characterised, the output is a permutation of
the filtered join (no row duplicated or dropped by ordering), and the
rows are sorted by class date descending, then class start time
ascending, then student name ascending. -/
theorem attendance_report_rows (students : List StudentRow)
    (classes : List ClassRow) (attendance : List AttRow) (sd ed : Nat)
    (sid? : Option String) :
    (∀ x, x ∈ reportQuery students classes attendance (some sd) (some ed) sid? ↔
      ∃ a ∈ attendance, ∃ s ∈ students, ∃ c ∈ classes,
        s.student_id = a.student_id ∧ c.id = a.class_id ∧
        sd ≤ c.date ∧ c.date ≤ ed ∧
        (∀ v, sid? = some v → s.student_id = v) ∧ x = mkReportRow s c a)
    ∧ (reportQuery students classes attendance (some sd) (some ed) sid?).Perm
        ((reportJoin students classes attendance).filter
          (inReportRange (some sd) (some ed) sid?))
    ∧ List.Sorted reportOrd
        (reportQuery students classes attendance (some sd) (some ed) sid?) := by
  refine ⟨?_, ?_, ?_⟩
  · intro x
    unfold reportQuery
    rw [List.mem_insertionSort, List.mem_filter, mem_reportJoin]
    constructor
    · rintro ⟨⟨a, ha, s, hs, c, hc, hsid, hcid, rfl⟩, hrange⟩
      unfold inReportRange at hrange
      simp only [Bool.and_eq_true, decide_eq_true_eq] at hrange
      refine ⟨a, ha, s, hs, c, hc, hsid, hcid, hrange.1.1, hrange.1.2, ?_, rfl⟩
      intro v hv
      rcases hrange with ⟨_, hstu⟩
      rw [hv] at hstu
      simpa [mkReportRow] using hstu
    · rintro ⟨a, ha, s, hs, c, hc, hsid, hcid, hsd, hed, hstu, rfl⟩
      refine ⟨⟨a, ha, s, hs, c, hc, hsid, hcid, rfl⟩, ?_⟩
      unfold inReportRange
      simp only [Bool.and_eq_true, decide_eq_true_eq]
      refine ⟨⟨by simpa [mkReportRow] using hsd, by simpa [mkReportRow] using hed⟩, ?_⟩
      cases hv : sid? with
      | none => rfl
      | some v => simpa [mkReportRow] using hstu v hv
  · exact List.perm_insertionSort reportLE _
  · exact (List.sorted_insertionSort reportLE _).imp fun h => reportLE_imp h

/-! ## Authentication (server.js lines 139-154 and 173-210) -/

/-- Environment-supplied authentication configuration
(`ADMIN_USERNAME`, `ADMIN_PASSWORD`, `JWT_SECRET`). -/
structure AuthConfig where
  adminUsername : String
  adminPassword : String
  jwtSecret : String

/-- An issued JWT: the signed payload (username, role), the secret it
was signed with, and issue/expiry epochs in seconds. -/
structure Token where
  username : String
  role : String
  secret : String
  iat : Nat
  exp : Nat
deriving DecidableEq

/-- `jwt.sign({username, role: 'admin'}, JWT_SECRET, {expiresIn: '24h'})`. -/
def jwtSign (username role secret : String) (now : Nat) : Token :=
  ⟨username, role, secret, now, now + 24 * 60 * 60⟩

/-- `jwt.verify(token, secret)` evaluated at time `now`: succeeds exactly
when the token was signed with the same secret and has not yet expired
(an expired token is an error, like a bad signature). -/
def jwtVerify (t : Token) (secret : String) (now : Nat) : Option (String × String) :=
  if t.secret = secret ∧ now < t.exp then some (t.username, t.role) else none

/-- Responses of `POST /api/auth/login`. -/
inductive LoginResult where
  | badRequest
  | ok (token : Token)
  | unauthorized
deriving DecidableEq

/-- `POST /api/auth/login`: `notEmpty` validation of both fields (an
absent field is modelled as the empty string) answers 400; then the
credential comparison against the configured admin pair answers 401 or a
signed 24-hour token. -/
def login (cfg : AuthConfig) (username password : String) (now : Nat) :
    LoginResult :=
  if username = "" ∨ password = "" then LoginResult.badRequest
  else if username = cfg.adminUsername ∧ password = cfg.adminPassword then
    LoginResult.ok (jwtSign username "admin" cfg.jwtSecret now)
  else LoginResult.unauthorized

/-- Outcomes of the `authenticateToken` middleware: 401 when the
Authorization header yields no token, 403 when `jwt.verify` rejects it,
otherwise the request proceeds. -/
inductive AuthResult where
  | missingToken
  | invalidToken
  | authorized (username role : String)
deriving DecidableEq

/-- server.js `authenticateToken` on the token extracted from the
`Authorization` header (`none` when the header is absent or has no
second space-separated part). -/
def authenticateToken (tok? : Option Token) (secret : String) (now : Nat) :
    AuthResult :=
  match tok? with
  | none => AuthResult.missingToken
  | some t =>
    match jwtVerify t secret now with
    | none => AuthResult.invalidToken
    | some (u, r) => AuthResult.authorized u r

/-- Reduction of the middleware on a present token. -/
theorem authenticateToken_some (t : Token) (secret : String) (n : Nat) :
    authenticateToken (some t) secret n =
      if t.secret = secret ∧ n < t.exp then
        AuthResult.authorized t.username t.role
      else AuthResult.invalidToken := by
  by_cases hv : t.secret = secret ∧ n < t.exp
  · rw [if_pos hv]
    unfold authenticateToken jwtVerify
    dsimp only
    rw [if_pos hv]
  · rw [if_neg hv]
    unfold authenticateToken jwtVerify
    dsimp only
    rw [if_neg hv]

/-- C10 counterexample: with admin credentials ("admin", "secret"), a
login request with an empty username and the correct password does not
match the credentials, so the claim demands a 401 — but the handler
answers 400 from the `notEmpty` validation step, before the credential
check. -/
theorem login_empty_field_counterexample :
    login ⟨"admin", "secret", "k"⟩ "" "secret" 0 = LoginResult.badRequest ∧
      ¬("" = "admin" ∧ "secret" = "secret") ∧
      LoginResult.badRequest ≠ LoginResult.unauthorized := by
  refine ⟨rfl, by decide, by decide⟩

/-- C10 (amended): a request with an empty (or missing) username or
password gets 400 and no token; when both fields are nonempty, a token
is issued exactly when the pair equals the configured admin credentials,
and otherwise the answer is 401 with no token; every issued token is
signed with the configured secret and expires 24 hours after issue; the
middleware answers 401 with no token present, accepts exactly a token
that is validly signed and not yet expired, and answers 403 otherwise. -/
theorem auth_login_token_amended (cfg : AuthConfig) (username password : String)
    (now : Nat) (t : Token) (secret : String) (n : Nat) :
    ((username = "" ∨ password = "") →
        login cfg username password now = LoginResult.badRequest)
    ∧ (username ≠ "" → password ≠ "" →
        ((∃ tk, login cfg username password now = LoginResult.ok tk) ↔
          (username = cfg.adminUsername ∧ password = cfg.adminPassword))
        ∧ (¬(username = cfg.adminUsername ∧ password = cfg.adminPassword) →
            login cfg username password now = LoginResult.unauthorized))
    ∧ (∀ tk, login cfg username password now = LoginResult.ok tk →
        tk.secret = cfg.jwtSecret ∧ tk.exp = now + 24 * 60 * 60)
    ∧ authenticateToken none secret n = AuthResult.missingToken
    ∧ (authenticateToken (some t) secret n =
        AuthResult.authorized t.username t.role ↔ (t.secret = secret ∧ n < t.exp))
    ∧ (authenticateToken (some t) secret n = AuthResult.invalidToken ↔
        ¬(t.secret = secret ∧ n < t.exp)) := by
  refine ⟨?_, ?_, ?_, rfl, ?_, ?_⟩
  · intro h
    unfold login
    rw [if_pos h]
  · intro hu hp
    have hne : ¬(username = "" ∨ password = "") := by tauto
    constructor
    · constructor
      · rintro ⟨tk, htk⟩
        unfold login at htk
        rw [if_neg hne] at htk
        by_cases hm : username = cfg.adminUsername ∧ password = cfg.adminPassword
        · exact hm
        · rw [if_neg hm] at htk
          cases htk
      · intro hm
        refine ⟨jwtSign username "admin" cfg.jwtSecret now, ?_⟩
        unfold login
        rw [if_neg hne, if_pos hm]
    · intro hm
      unfold login
      rw [if_neg hne, if_neg hm]
  · intro tk htk
    unfold login at htk
    split at htk
    · cases htk
    · split at htk
      · cases htk
        exact ⟨rfl, rfl⟩
      · cases htk
  · rw [authenticateToken_some]
    by_cases hv : t.secret = secret ∧ n < t.exp
    · rw [if_pos hv]
      exact ⟨fun _ => hv, fun _ => rfl⟩
    · rw [if_neg hv]
      exact ⟨fun hcon => absurd hcon (by simp), fun hx => absurd hx hv⟩
  · rw [authenticateToken_some]
    by_cases hv : t.secret = secret ∧ n < t.exp
    · rw [if_pos hv]
      exact ⟨fun hcon => absurd hcon (by simp), fun hn => absurd hv hn⟩
    · rw [if_neg hv]
      exact ⟨fun _ => hv, fun _ => rfl⟩

/-! ## Frame intake and delegation (server.js lines 948-1047)

The synchronous part of `POST /api/process-frame` validates the body,
writes the transient frame file and spawns the recognizer; everything
afterwards happens in two callbacks — the child process 'close' event
and the 10-second timer — modelled here as an event machine. -/

/-- The parsed JSON output of the recognizer (`JSON.parse(output)`),
reduced to the field the handler inspects. -/
structure RecogResult where
  attendance_marked : List String
deriving DecidableEq

/-- The HTTP response of `POST /api/process-frame` after validation. -/
inductive FrameResponse where
  | ok (result : RecogResult)
  | parseFailure
  | processFailure
  | timeout
deriving DecidableEq

/-- The two asynchronous callbacks the handler registers: the child
process 'close' event (with the exit code and the parse of its stdout,
`none` when `JSON.parse` fails) and the timer; `time` is milliseconds
since the request started. -/
inductive FrameEvent where
  | procClose (code : Int) (parsed : Option RecogResult) (time : Nat)
  | timeoutFire (time : Nat)
deriving DecidableEq

def FrameEvent.time : FrameEvent → Nat
  | procClose _ _ t => t
  | timeoutFire t => t

def FrameEvent.isClose : FrameEvent → Bool
  | procClose _ _ _ => true
  | timeoutFire _ => false

/-- Handler state after the synchronous part wrote the temp frame file
and spawned the recognizer. -/
structure FrameState where
  responseCompleted : Bool
  fileExists : Bool
  timeoutCleared : Bool
  processKilled : Bool
  responses : List (Nat × FrameResponse)
deriving DecidableEq

def initFrameState : FrameState := ⟨false, true, false, false, []⟩

/-- The `pythonProcess.on('close', ...)` callback: delete the temp file
first (unconditionally, before the guard), return if a response was
already sent, else clear the timer and respond — the parsed stdout on
exit code 0 (500 on parse failure), 500 on a non-zero exit. -/
def closeStep (st : FrameState) (code : Int) (parsed : Option RecogResult)
    (t : Nat) : FrameState :=
  if st.responseCompleted then
    { st with fileExists := false }
  else if code = 0 then
    match parsed with
    | some r =>
      { st with fileExists := false, responseCompleted := true,
                timeoutCleared := true,
                responses := st.responses ++ [(t, FrameResponse.ok r)] }
    | none =>
      { st with fileExists := false, responseCompleted := true,
                timeoutCleared := true,
                responses := st.responses ++ [(t, FrameResponse.parseFailure)] }
  else
    { st with fileExists := false, responseCompleted := true,
              timeoutCleared := true,
              responses := st.responses ++ [(t, FrameResponse.processFailure)] }

/-- The `setTimeout(..., 10000)` callback: return if a response was
already sent, else mark completed, kill the child, delete the temp file
and respond 500 timeout. -/
def timeoutStep (st : FrameState) (t : Nat) : FrameState :=
  if st.responseCompleted then st
  else { st with responseCompleted := true, processKilled := true,
                 fileExists := false,
                 responses := st.responses ++ [(t, FrameResponse.timeout)] }

def frameStep (st : FrameState) : FrameEvent → FrameState
  | FrameEvent.procClose code parsed t => closeStep st code parsed t
  | FrameEvent.timeoutFire t => timeoutStep st t

def runFrame (st : FrameState) (trace : List FrameEvent) : FrameState :=
  trace.foldl frameStep st

/-- Validity of a callback trace under Node's single-threaded event-loop
semantics for this handler: callbacks run in chronological order (stated
pairwise, which for the transitive ≤ equals the chain condition); the
child's 'close' event fires at most once; the timer fires at most once
and exactly at 10000 ms; and — because the timer is cleared only inside
the close callback — either the close event is delivered by 10000 ms or
the timer fires. -/
def ValidTrace (trace : List FrameEvent) : Prop :=
  trace.Pairwise (fun a b => a.time ≤ b.time) ∧
  trace.countP (fun e => e.isClose) ≤ 1 ∧
  trace.countP (fun e => !e.isClose) ≤ 1 ∧
  (∀ e ∈ trace, e.isClose = false → e.time = 10000) ∧
  ((∃ e ∈ trace, e.isClose = true ∧ e.time ≤ 10000) ∨
    (∃ e ∈ trace, e.isClose = false))

instance : DecidablePred ValidTrace := fun trace => by
  unfold ValidTrace
  infer_instance

/-- Once a response was sent, later callbacks never add another. -/
theorem runFrame_stable (trace : List FrameEvent) :
    ∀ st : FrameState, st.responseCompleted = true →
      (runFrame st trace).responses = st.responses ∧
        (runFrame st trace).responseCompleted = true := by
  induction trace with
  | nil => exact fun st h => ⟨rfl, h⟩
  | cons e rest ih =>
    intro st h
    rw [runFrame, List.foldl_cons]
    cases e with
    | procClose code parsed t =>
      have hstep : frameStep st (FrameEvent.procClose code parsed t) =
          { st with fileExists := false } := by
        unfold frameStep closeStep
        dsimp only
        rw [if_pos h]
      rw [hstep]
      exact ih { st with fileExists := false } h
    | timeoutFire t =>
      have hstep : frameStep st (FrameEvent.timeoutFire t) = st := by
        unfold frameStep timeoutStep
        dsimp only
        rw [if_pos h]
      rw [hstep]
      exact ih st h

/-- Once the temp file is gone it never comes back. -/
theorem runFrame_file_false (trace : List FrameEvent) :
    ∀ st : FrameState, st.fileExists = false →
      (runFrame st trace).fileExists = false := by
  induction trace with
  | nil => exact fun st h => h
  | cons e rest ih =>
    intro st h
    rw [runFrame, List.foldl_cons]
    apply ih
    cases e with
    | procClose code parsed t =>
      unfold frameStep closeStep
      dsimp only
      split
      · rfl
      · split
        · cases parsed <;> rfl
        · rfl
    | timeoutFire t =>
      unfold frameStep timeoutStep
      dsimp only
      split
      · exact h
      · rfl

/-- A 'close' callback always leaves the temp file deleted. -/
theorem closeStep_file (st : FrameState) (code : Int)
    (parsed : Option RecogResult) (t : Nat) :
    (closeStep st code parsed t).fileExists = false := by
  unfold closeStep
  split
  · rfl
  · split
    · cases parsed <;> rfl
    · rfl

/-- The first 'close' callback on the fresh state: exactly one response. -/
theorem closeStep_init (code : Int) (parsed : Option RecogResult) (t : Nat) :
    ∃ r, closeStep initFrameState code parsed t =
      { responseCompleted := true, fileExists := false, timeoutCleared := true,
        processKilled := false, responses := [(t, r)] } := by
  by_cases hc : code = 0
  · cases parsed with
    | some r =>
      refine ⟨FrameResponse.ok r, ?_⟩
      unfold closeStep initFrameState
      simp [hc]
    | none =>
      refine ⟨FrameResponse.parseFailure, ?_⟩
      unfold closeStep initFrameState
      simp [hc]
  · refine ⟨FrameResponse.processFailure, ?_⟩
    unfold closeStep initFrameState
    simp [hc]

/-- The timer callback on the fresh state: the timeout response. -/
theorem timeoutStep_init (t : Nat) :
    timeoutStep initFrameState t =
      { responseCompleted := true, fileExists := false, timeoutCleared := false,
        processKilled := true, responses := [(t, FrameResponse.timeout)] } := rfl

/-- C2: for every validated `POST /api/process-frame` request, over every
valid callback trace exactly one response is produced — by the
process-completion path or the timeout path, never both and never
neither (each path checks `res.headersSent || responseCompleted` first)
— and it is produced within the configured 10-second bound. -/
theorem process_frame_single_response (trace : List FrameEvent)
    (h : ValidTrace trace) :
    ∃ t r, (runFrame initFrameState trace).responses = [(t, r)] ∧ t ≤ 10000 := by
  obtain ⟨hchain, hclose, htmo, htime, hlive⟩ := h
  cases trace with
  | nil =>
    exfalso
    rcases hlive with ⟨e, he, _⟩ | ⟨e, he, _⟩ <;> exact (List.not_mem_nil e) he
  | cons e rest =>
    have hfirst : ∃ r, (frameStep initFrameState e).responses = [(e.time, r)] ∧
        (frameStep initFrameState e).responseCompleted = true := by
      cases e with
      | procClose code parsed t =>
        obtain ⟨r, hr⟩ := closeStep_init code parsed t
        refine ⟨r, ?_, ?_⟩
        · show (closeStep initFrameState code parsed t).responses = _
          rw [hr]
          rfl
        · show (closeStep initFrameState code parsed t).responseCompleted = true
          rw [hr]
      | timeoutFire t =>
        refine ⟨FrameResponse.timeout, ?_, ?_⟩
        · show (timeoutStep initFrameState t).responses = _
          rw [timeoutStep_init]
          rfl
        · show (timeoutStep initFrameState t).responseCompleted = true
          rw [timeoutStep_init]
    obtain ⟨r, hresp, hcomp⟩ := hfirst
    have hstable := runFrame_stable rest (frameStep initFrameState e) hcomp
    have key : runFrame initFrameState (e :: rest) =
        runFrame (frameStep initFrameState e) rest := by
      unfold runFrame
      rw [List.foldl_cons]
    refine ⟨e.time, r, ?_, ?_⟩
    · rw [key, hstable.1, hresp]
    · rw [List.pairwise_cons] at hchain
      cases hec : e.isClose with
      | false => exact le_of_eq (htime e (List.mem_cons_self e rest) hec)
      | true =>
        rcases hlive with ⟨e2, he2, he2c, he2t⟩ | ⟨e2, he2, he2c⟩
        · rcases List.mem_cons.mp he2 with rfl | he2r
          · exact he2t
          · exfalso
            rw [List.countP_cons] at hclose
            have h1 : 0 < rest.countP (fun e => e.isClose) :=
              List.countP_pos_iff.mpr ⟨e2, he2r, he2c⟩
            simp only [hec, if_true] at hclose
            omega
        · rcases List.mem_cons.mp he2 with rfl | he2r
          · rw [hec] at he2c
            cases he2c
          · have hle := hchain.1 e2 he2r
            have ht2 := htime e2 (List.mem_cons_of_mem _ he2r) he2c
            omega

/-- Witness for the C2 theorem: a successful recognition at 500 ms. -/
theorem process_frame_single_response_witness :
    ValidTrace [FrameEvent.procClose 0 (some ⟨[]⟩) 500] ∧
      ∃ t r, (runFrame initFrameState
        [FrameEvent.procClose 0 (some ⟨[]⟩) 500]).responses = [(t, r)] ∧
        t ≤ 10000 :=
  ⟨by decide, process_frame_single_response _ (by decide)⟩

/-- C3: after every valid callback trace of a validated request — the
recognizer succeeding, exiting non-zero, producing unparsable output,
timing out, or any combination the event loop can deliver — the
transient frame file no longer exists. -/
theorem process_frame_temp_file_deleted (trace : List FrameEvent)
    (h : ValidTrace trace) :
    (runFrame initFrameState trace).fileExists = false := by
  obtain ⟨_, _, _, _, hlive⟩ := h
  cases trace with
  | nil =>
    exfalso
    rcases hlive with ⟨e, he, _⟩ | ⟨e, he, _⟩ <;> exact (List.not_mem_nil e) he
  | cons e rest =>
    have key : runFrame initFrameState (e :: rest) =
        runFrame (frameStep initFrameState e) rest := by
      unfold runFrame
      rw [List.foldl_cons]
    rw [key]
    apply runFrame_file_false
    cases e with
    | procClose code parsed t => exact closeStep_file _ _ _ _
    | timeoutFire t =>
      show (timeoutStep initFrameState t).fileExists = false
      rw [timeoutStep_init]

/-- Witness for the C3 theorem: a timeout firing at 10 s. -/
theorem process_frame_temp_file_deleted_witness :
    ValidTrace [FrameEvent.timeoutFire 10000] ∧
      (runFrame initFrameState [FrameEvent.timeoutFire 10000]).fileExists = false :=
  ⟨by decide, process_frame_temp_file_deleted _ (by decide)⟩

end AMS
